import Mathlib

/-!
Shallow embedding of the Ohpus conversion core (`src/ohopus/core/convert.py`
and `src/ohopus/tagging/tags.py`) and proofs about it.

Conventions of the embedding:
* Python strings are Lean `String`; `str.lower()` is modelled by mapping
  `Char.toLower` over the characters (the genre keywords are ASCII).
* Python `int(x)` on a non-negative float of the form `b * 1.25` (with `b`
  a non-negative machine integer, exactly representable) truncates toward
  zero, i.e. it is `b * 5 / 4` in natural-number division.
* Fallible Python steps are modelled in `Except String`; a bare
  `try/except` handler is an explicit `match` on the `Except` value.
* The thread pool is modelled by a sequential linearisation: a submitted
  job either runs to completion of `_process_job` (with an outcome oracle
  for its fallible external steps) or, when cancellation was requested
  during the run, may never start (`Future.cancel` succeeded), in which
  case the job record is never touched.
-/

namespace Ohpus

/-- Characters of a string lowered with `Char.toLower`, modelling
`str.lower()` for the ASCII strings compared here. -/
def lowerChars (s : String) : List Char :=
  s.data.map Char.toLower

/-- Boolean substring test on character lists, modelling Python's
`pat in s` containment test on strings. -/
def containsSub (pat : List Char) : List Char → Bool
  | [] => pat.isEmpty
  | c :: rest => pat.isPrefixOf (c :: rest) || containsSub pat rest

/-- Subset of `Settings` (src/ohopus/core/settings.py) that the conversion
core reads: encoding bitrate, skip policy, genre boost flag, thread cap. -/
structure Settings where
  bitrate : Nat
  skip_existing : Bool
  genre_bitrate_boost : Bool
  max_threads : Nat
deriving Repr, DecidableEq

/-- Genre keywords from `ConversionManager._get_adjusted_bitrate`
(convert.py line 291). -/
def complex_genres : List String :=
  ["classical", "edm", "electronic", "metal", "jazz"]

/-- Condition of the keyword loop in `_get_adjusted_bitrate` (convert.py
lines 291-293): the lowercased genre string contains one of the fixed
keywords as a substring. -/
def genre_is_complex (g : String) : Bool :=
  complex_genres.any (fun k => containsSub k.data (lowerChars g))

/-- Embedding of `ConversionManager._get_adjusted_bitrate` (convert.py
lines 276-299).  `genreTag` is the outcome of the tag-reading attempt:
`none` models any failure of the `try` block (unreadable file, no tags —
the bare `except: pass` swallows it), `some g` models a successful read
where `g` is `str(audio.tags.get('TCON', ''))`.  On success the code
lowercases the genre, scans the fixed keyword list, and on the first
substring hit returns `min(int(bitrate * 1.25), 320)`, i.e.
`min (bitrate * 5 / 4) 320` since the float product is exact and `int`
truncates toward zero; in every other case it returns the base bitrate. -/
def get_adjusted_bitrate (settings : Settings) (genreTag : Option String) : Nat :=
  let bitrate := settings.bitrate
  if !settings.genre_bitrate_boost then bitrate
  else
    match genreTag with
    | none => bitrate
    | some g =>
      if genre_is_complex g then
        min (bitrate * 5 / 4) 320
      else
        bitrate

/-- Per-job record as read by `_calculate_overall_progress`: the `status`
string and the fractional `progress` field of `ConversionJob`. -/
structure JobView where
  status : String
  progress : ℚ
deriving Repr, DecidableEq

/-- Embedding of `ConversionManager._calculate_overall_progress`
(convert.py lines 323-331): returns `0.0` when the job list is empty;
otherwise `(completed + in_progress) / len(jobs)` where `completed` is the
sum of the three counters and `in_progress` sums `job.progress` over jobs
whose status is `"processing"`. -/
def calculate_overall_progress (converted skipped errs : Nat)
    (jobs : List JobView) : ℚ :=
  if jobs.isEmpty then 0
  else
    let completed : ℚ := (converted : ℚ) + (skipped : ℚ) + (errs : ℚ)
    let in_progress : ℚ :=
      ((jobs.filter (fun j => j.status == "processing")).map (fun j => j.progress)).sum
    (completed + in_progress) / (jobs.length : ℚ)

/-- Splitting on the first occurrence of a character, modelling Python's
`s.split(c, 1)` in the case where `c` occurs in `s`: the first component
is everything before the first occurrence, the second everything after it. -/
def splitFirst (s : String) (c : Char) : String × String :=
  (⟨s.data.takeWhile (fun x => !(x == c))⟩,
   ⟨(s.data.dropWhile (fun x => !(x == c))).tail⟩)

/-- Embedding of `TagHandler._parse_track_disc_numbers` (tags.py lines
126-146).  `trck` / `tpos` are the text of the source's TRCK / TPOS frames
(`none` when the frame is absent).  The result is the list of Vorbis
comment assignments made on the destination, in order. -/
def parse_track_disc_numbers (trck tpos : Option String) :
    List (String × String) :=
  (match trck with
   | none => []
   | some track =>
     if track.data.contains '/' then
       let nt := splitFirst track '/'
       [("TRACKNUMBER", nt.1), ("TRACKTOTAL", nt.2)]
     else
       [("TRACKNUMBER", track)]) ++
  (match tpos with
   | none => []
   | some disc =>
     if disc.data.contains '/' then
       let nt := splitFirst disc '/'
       [("DISCNUMBER", nt.1), ("DISCTOTAL", nt.2)]
     else
       [("DISCNUMBER", disc)])

/-- Outcome oracle for the fallible steps of `TagHandler.copy_tags`
(tags.py lines 49-87).  Each flag says whether that Python step raises;
`source_is_none` models `File(...)` returning a falsy value. -/
structure TagEnv where
  load_source_raises : Bool
  source_is_none : Bool
  load_dest_raises : Bool
  copy_tags_raises : Bool
  copy_art_raises : Bool
  save_raises : Bool
deriving Repr, DecidableEq

/-- One fallible Python step: raises (`Except.error`) iff its flag is set. -/
def tagStep (raises : Bool) (msg : String) : Except String Unit :=
  if raises then Except.error msg else Except.ok ()

/-- Body of the `try` block of `TagHandler.copy_tags`: load the source
(return `False` if falsy), load the destination, copy the standard tags,
copy the album art — whose failures `_copy_album_art` catches internally
(tags.py lines 151-156), so they never propagate — then save. -/
def copy_tags_body (env : TagEnv) : Except String Bool := do
  tagStep env.load_source_raises "load source"
  if env.source_is_none then
    return false
  tagStep env.load_dest_raises "load dest"
  tagStep env.copy_tags_raises "copy tags"
  match tagStep env.copy_art_raises "copy art" with
  | Except.ok _ => pure ()
  | Except.error _ => pure ()
  tagStep env.save_raises "save"
  return true

/-- `TagHandler.copy_tags` at the exception level: the whole body sits in
a `try` whose `except Exception` handler logs and returns `False`, so the
call itself never propagates an exception. -/
def copy_tags_caught (env : TagEnv) : Except String Bool :=
  match copy_tags_body env with
  | Except.ok b => Except.ok b
  | Except.error _ => Except.ok false

/-- Embedding of `TagHandler.copy_tags` as seen by its caller: a total
Boolean result. -/
def copy_tags (env : TagEnv) : Bool :=
  match copy_tags_caught env with
  | Except.ok b => b
  | Except.error _ => false

/-- Whether an exception-level computation finished without an escaping
exception. -/
def exceptIsOk {e a : Type} : Except e a → Bool
  | Except.ok _ => true
  | Except.error _ => false

/-- Messages put on the UI `message_queue` by the conversion core
(spec section 3, "Event"). -/
inductive Event where
  | log (message : String) (level : String)
  | progressEv (overall : ℚ) (current : ℚ) (file : String)
  | complete (converted skipped errors : Nat)
  | errorEv (message : String)
deriving Repr, DecidableEq

/-- Outcome oracle for one execution of `_process_job` (convert.py lines
191-267), abstracting the fallible external steps.

* `preEngineRaise`: an exception before the local `engine` is assigned
  (for example `dest_path.parent.mkdir` at line 205, or `_create_engine`
  at line 208, raising).  The `except` branch counts one error and marks
  the job, after which the `finally` block (line 266) evaluates the
  still-unbound local `engine` and raises `UnboundLocalError`, which
  escapes `_process_job` and is re-raised by `future.result()`.
* `encodeFail`: `engine` was assigned and the encode failed (engine
  returned `False`, raising `Exception("Encoding failed")` at line 236,
  or any later exception).  One error is counted; the `finally` block
  succeeds, so nothing escapes.
* `success`: the encode succeeded.  `TagHandler.copy_tags` returns a
  Boolean and never raises, and `_apply_replaygain` catches internally,
  so the job is counted converted regardless of those results. -/
inductive ProcOutcome where
  | preEngineRaise (msg : String)
  | encodeFail (msg : String)
  | success
deriving Repr, DecidableEq

/-- One discovered job together with its environment oracle: `destExists`
is whether its destination path exists (read by `_should_skip`);
`startsDespiteCancel` says whether, in runs where `cancel()` was called,
this submitted future had already started when the pool observed the
cancellation (`Future.cancel` fails on started futures); `outcome` is the
oracle for its `_process_job` execution. -/
structure JobSpec where
  name : String
  destExists : Bool
  startsDespiteCancel : Bool
  outcome : ProcOutcome
deriving Repr, DecidableEq

/-- Result of running `_process_job` on one job: the final `status` field,
the increments to `converted_count` and `error_count` performed inside
`_process_job`, whether an exception escaped it (to be observed by
`future.result()`), and the log messages it put on the queue. -/
structure ProcResult where
  status : String
  dConverted : Nat
  dError : Nat
  escapes : Bool
  events : List Event
deriving Repr, DecidableEq

/-- Embedding of `_process_job` (convert.py lines 191-267) as driven by
the job's outcome oracle. -/
def process_job (spec : JobSpec) : ProcResult :=
  match spec.outcome with
  | ProcOutcome.success =>
    { status := "completed", dConverted := 1, dError := 0, escapes := false,
      events := [Event.log ("Converting: " ++ spec.name) "info",
                 Event.log ("Completed: " ++ spec.name) "success"] }
  | ProcOutcome.encodeFail msg =>
    { status := "error", dConverted := 0, dError := 1, escapes := false,
      events := [Event.log ("Converting: " ++ spec.name) "info",
                 Event.log ("Failed: " ++ spec.name ++ " - " ++ msg) "error"] }
  | ProcOutcome.preEngineRaise msg =>
    { status := "error", dConverted := 0, dError := 1, escapes := true,
      events := [Event.log ("Converting: " ++ spec.name) "info",
                 Event.log ("Failed: " ++ spec.name ++ " - " ++ msg) "error"] }

/-- Whether `should_cancel` is observed as set at dispatch-loop index `i`:
`cancelAt = some c` means `cancel()` took effect just before iteration
`c`. -/
def cancelled (cancelAt : Option Nat) (i : Nat) : Bool :=
  match cancelAt with
  | none => false
  | some c => decide (c ≤ i)

/-- Final per-job record of one run: the job's final `status` field,
whether the dispatch loop reached it before cancellation (`dispatched`),
whether it was handed to the pool (`submitted`), whether `_process_job`
actually ran (`ran`), and whether its exception escaped (`escaped`). -/
structure JobResult where
  name : String
  status : String
  dispatched : Bool
  submitted : Bool
  ran : Bool
  escaped : Bool
deriving Repr, DecidableEq

/-- Record for a job that the run never touched: its `ConversionJob`
fields keep their constructor values, in particular `status = "pending"`. -/
def pendingResult (spec : JobSpec) (dispatched submitted : Bool) : JobResult :=
  { name := spec.name, status := "pending", dispatched := dispatched,
    submitted := submitted, ran := false, escaped := false }

/-- Disposition of the job at dispatch index `i` in the linearised run:
if cancellation is observed at or before `i` the loop has broken and the
job is untouched; otherwise the skip policy runs, and a submitted job
executes `_process_job` unless a requested cancellation prevented it from
ever starting. -/
def job_disposition (skipExisting : Bool) (cancelAt : Option Nat) (i : Nat)
    (spec : JobSpec) : JobResult :=
  if cancelled cancelAt i then
    pendingResult spec false false
  else if skipExisting && spec.destExists then
    { name := spec.name, status := "skipped", dispatched := true,
      submitted := false, ran := false, escaped := false }
  else if cancelAt.isNone || spec.startsDespiteCancel then
    let pr := process_job spec
    { name := spec.name, status := pr.status, dispatched := true,
      submitted := true, ran := true, escaped := pr.escapes }
  else
    pendingResult spec true true

/-- Accumulator of the dispatch loop of `convert_batch` (convert.py lines
99-132): the three counters, the events put so far, and the per-job
records in job order. -/
structure DispatchAcc where
  converted : Nat
  skipped : Nat
  errors : Nat
  events : List Event
  results : List JobResult
deriving Repr, DecidableEq

/-- Embedding of the dispatch loop (convert.py lines 99-132) over the
enumerated job list, as one linearisation: a submitted job's
`_process_job` effects are applied at submission time.  The `break` on
`should_cancel` is realised by the cancel test, which holds at every index
from the cancellation point on, so every later job is left untouched.
After each submission the loop puts a `progress` event computed from the
current counters.  The pause loop (lines 104-105) only delays iterations
and is not modelled. -/
def dispatch (skipExisting : Bool) (cancelAt : Option Nat) (total : Nat) :
    List (Nat × JobSpec) → DispatchAcc → DispatchAcc
  | [], acc => acc
  | (i, spec) :: rest, acc =>
    if cancelled cancelAt i then
      dispatch skipExisting cancelAt total rest
        { acc with results := acc.results ++ [pendingResult spec false false] }
    else if skipExisting && spec.destExists then
      dispatch skipExisting cancelAt total rest
        { acc with
          skipped := acc.skipped + 1,
          events := acc.events ++ [Event.log ("Skipped: " ++ spec.name) "info"],
          results := acc.results ++
            [{ name := spec.name, status := "skipped", dispatched := true,
               submitted := false, ran := false, escaped := false }] }
    else if cancelAt.isNone || spec.startsDespiteCancel then
      let pr := process_job spec
      let conv := acc.converted + pr.dConverted
      let errs := acc.errors + pr.dError
      dispatch skipExisting cancelAt total rest
        { converted := conv, skipped := acc.skipped, errors := errs,
          events := acc.events ++ pr.events ++
            [Event.progressEv (((conv + acc.skipped + errs : Nat) : ℚ) / (total : ℚ))
              0 spec.name],
          results := acc.results ++
            [{ name := spec.name, status := pr.status, dispatched := true,
               submitted := true, ran := true, escaped := pr.escapes }] }
    else
      dispatch skipExisting cancelAt total rest
        { acc with
          events := acc.events ++
            [Event.progressEv
              (((acc.converted + acc.skipped + acc.errors : Nat) : ℚ) / (total : ℚ))
              0 spec.name],
          results := acc.results ++ [pendingResult spec true true] }

/-- Embedding of the wait loop (convert.py lines 135-143): when
cancellation was requested each future only gets `Future.cancel()`;
otherwise `future.result()` is called, and every exception that escaped a
`_process_job` is caught there and counted as one more error. -/
def waitPhase (cancelRequested : Bool) (results : List JobResult)
    (errors : Nat) : Nat :=
  if cancelRequested then errors
  else errors + (results.filter (fun r => r.escaped)).length

/-- Observable outcome of one `convert_batch` run: final counters, the
events put on the queue in order, the per-job records, and the worker
count of the created pool (`none` when no pool was created). -/
structure BatchResult where
  converted : Nat
  skipped : Nat
  errors : Nat
  events : List Event
  results : List JobResult
  max_workers : Option Nat
deriving Repr, DecidableEq

/-- Embedding of `ConversionManager.convert_batch` (convert.py lines
57-162) after discovery produced `specs`.  With zero jobs the function
logs a warning and returns from inside the `try` (line 85), so no pool is
created and no `complete` event is put.  Otherwise it logs the job count,
creates the pool with `min(settings.max_threads, total)` workers, runs
the dispatch loop, the wait loop, and puts the `complete` event with the
final counters. -/
def convert_batch (settings : Settings) (specs : List JobSpec)
    (cancelAt : Option Nat) : BatchResult :=
  let total := specs.length
  let ev0 := [Event.log "Scanning for MP3 files..." "info"]
  if total = 0 then
    { converted := 0, skipped := 0, errors := 0,
      events := ev0 ++
        [Event.log "No MP3 files found in source directory" "warning"],
      results := [], max_workers := none }
  else
    let ev1 := ev0 ++
      [Event.log ("Found " ++ toString total ++ " MP3 files to convert") "info"]
    let acc := dispatch settings.skip_existing cancelAt total specs.enum
      { converted := 0, skipped := 0, errors := 0, events := ev1, results := [] }
    let errs := waitPhase cancelAt.isSome acc.results acc.errors
    { converted := acc.converted, skipped := acc.skipped, errors := errs,
      events := acc.events ++ [Event.complete acc.converted acc.skipped errs],
      results := acc.results,
      max_workers := some (min settings.max_threads total) }

/-- Filesystem as seen by `_discover_files`: whether the configured source
folder is an existing directory, and the relative paths of the `*.mp3`
files below it in `rglob` order (meaningful only when it is a directory). -/
structure FileSystem where
  source_is_dir : Bool
  mp3_files : List String
deriving Repr, DecidableEq

/-- Embedding of `Path(source).rglob("*.mp3")` as used by
`_discover_files` (convert.py line 170): pathlib's glob machinery checks
`is_dir()` on the base path first and yields nothing when the path does
not exist or is not a directory — it raises no exception in that case. -/
def rglob_mp3 (fs : FileSystem) : List String :=
  if fs.source_is_dir then fs.mp3_files else []

/-- Embedding of `_discover_files` (convert.py lines 164-178) composed
with the per-job oracles: one `JobSpec` per discovered file, in `rglob`
order. -/
def discover_files (fs : FileSystem) (destExists : String → Bool)
    (starts : String → Bool) (outcome : String → ProcOutcome) : List JobSpec :=
  (rglob_mp3 fs).map (fun n =>
    { name := n, destExists := destExists n, startsDespiteCancel := starts n,
      outcome := outcome n })

/-- State of a `ConversionManager` instance outside the job list: flags
and counters (convert.py lines 42-55). -/
structure ManagerState where
  is_running : Bool
  is_paused : Bool
  should_cancel : Bool
  converted_count : Nat
  skipped_count : Nat
  error_count : Nat
deriving Repr, DecidableEq

/-- Embedding of the entry prefix of `convert_batch` (convert.py lines
64-68): the method runs these assignments unconditionally on every call —
there is no check of `is_running` and no `AlreadyRunningError` anywhere in
the repository — setting `is_running`, clearing `should_cancel`, and
resetting all three counters. -/
def convert_batch_entry (st : ManagerState) : ManagerState :=
  { st with
    is_running := true
    should_cancel := false
    converted_count := 0
    skipped_count := 0
    error_count := 0 }

/-- Whether an event is the terminal `("complete", ...)` message. -/
def Event.isComplete : Event → Bool
  | Event.complete _ _ _ => true
  | _ => false

/-- Whether an event is an `("error", ...)` message. -/
def Event.isError : Event → Bool
  | Event.errorEv _ => true
  | _ => false

/-! Helper lemmas about the dispatch loop. -/

/-- Per-job view of the dispatch loop: the final job records are exactly
the dispositions of the enumerated jobs, in order. -/
theorem dispatch_results (sk : Bool) (ca : Option Nat) (total : Nat) :
    ∀ (l : List (Nat × JobSpec)) (acc : DispatchAcc),
      (dispatch sk ca total l acc).results =
        acc.results ++ l.map (fun p => job_disposition sk ca p.1 p.2) := by
  intro l
  induction l with
  | nil => intro acc; simp [dispatch]
  | cons p rest ih =>
    intro acc
    obtain ⟨i, spec⟩ := p
    by_cases h1 : cancelled ca i = true
    · simp [dispatch, job_disposition, h1, ih]
    · by_cases h2 : sk = true ∧ spec.destExists = true
      · obtain ⟨hsk, hde⟩ := h2
        subst hsk
        simp [dispatch, job_disposition, h1, hde, ih]
      · by_cases h3 : ca = none ∨ spec.startsDespiteCancel = true
        · simp [dispatch, job_disposition, h1, h2, h3, ih]
        · simp [dispatch, job_disposition, h1, h2, h3, ih]

/-- The converted counter after the dispatch loop counts exactly the jobs
whose disposition is the terminal status "completed". -/
theorem dispatch_converted (sk : Bool) (ca : Option Nat) (total : Nat) :
    ∀ (l : List (Nat × JobSpec)) (acc : DispatchAcc),
      (dispatch sk ca total l acc).converted =
        acc.converted +
          (l.map (fun p => job_disposition sk ca p.1 p.2)).countP
            (fun r => r.status == "completed") := by
  intro l
  induction l with
  | nil => intro acc; simp [dispatch]
  | cons p rest ih =>
    intro acc
    obtain ⟨i, spec⟩ := p
    by_cases h1 : cancelled ca i = true
    · simp [dispatch, job_disposition, h1, ih, pendingResult, List.countP_cons]
    · by_cases h2 : sk = true ∧ spec.destExists = true
      · obtain ⟨hsk, hde⟩ := h2
        subst hsk
        simp [dispatch, job_disposition, h1, hde, ih, List.countP_cons]
      · by_cases h3 : ca = none ∨ spec.startsDespiteCancel = true
        · cases ho : spec.outcome <;>
            simp [dispatch, job_disposition, h1, h2, h3, ih, process_job, ho,
              List.countP_cons] <;> omega
        · simp [dispatch, job_disposition, h1, h2, h3, ih, pendingResult,
            List.countP_cons]

/-- The skipped counter after the dispatch loop counts exactly the jobs
whose disposition is the status "skipped". -/
theorem dispatch_skipped (sk : Bool) (ca : Option Nat) (total : Nat) :
    ∀ (l : List (Nat × JobSpec)) (acc : DispatchAcc),
      (dispatch sk ca total l acc).skipped =
        acc.skipped +
          (l.map (fun p => job_disposition sk ca p.1 p.2)).countP
            (fun r => r.status == "skipped") := by
  intro l
  induction l with
  | nil => intro acc; simp [dispatch]
  | cons p rest ih =>
    intro acc
    obtain ⟨i, spec⟩ := p
    by_cases h1 : cancelled ca i = true
    · simp [dispatch, job_disposition, h1, ih, pendingResult, List.countP_cons]
    · by_cases h2 : sk = true ∧ spec.destExists = true
      · obtain ⟨hsk, hde⟩ := h2
        subst hsk
        simp [dispatch, job_disposition, h1, hde, ih, List.countP_cons]
        omega
      · by_cases h3 : ca = none ∨ spec.startsDespiteCancel = true
        · cases ho : spec.outcome <;>
            simp [dispatch, job_disposition, h1, h2, h3, ih, process_job, ho,
              List.countP_cons]
        · simp [dispatch, job_disposition, h1, h2, h3, ih, pendingResult,
            List.countP_cons]

/-- The error counter accumulated inside the dispatch loop counts exactly
the jobs whose disposition is the terminal status "error". -/
theorem dispatch_errors (sk : Bool) (ca : Option Nat) (total : Nat) :
    ∀ (l : List (Nat × JobSpec)) (acc : DispatchAcc),
      (dispatch sk ca total l acc).errors =
        acc.errors +
          (l.map (fun p => job_disposition sk ca p.1 p.2)).countP
            (fun r => r.status == "error") := by
  intro l
  induction l with
  | nil => intro acc; simp [dispatch]
  | cons p rest ih =>
    intro acc
    obtain ⟨i, spec⟩ := p
    by_cases h1 : cancelled ca i = true
    · simp [dispatch, job_disposition, h1, ih, pendingResult, List.countP_cons]
    · by_cases h2 : sk = true ∧ spec.destExists = true
      · obtain ⟨hsk, hde⟩ := h2
        subst hsk
        simp [dispatch, job_disposition, h1, hde, ih, List.countP_cons]
      · by_cases h3 : ca = none ∨ spec.startsDespiteCancel = true
        · cases ho : spec.outcome <;>
            simp [dispatch, job_disposition, h1, h2, h3, ih, process_job, ho,
              List.countP_cons] <;> omega
        · simp [dispatch, job_disposition, h1, h2, h3, ih, pendingResult,
            List.countP_cons]

/-- Every job disposition carries one of the four statuses that the code
ever assigns to a `ConversionJob`. -/
theorem job_disposition_status (sk : Bool) (ca : Option Nat) (i : Nat)
    (spec : JobSpec) :
    (job_disposition sk ca i spec).status = "pending" ∨
    (job_disposition sk ca i spec).status = "skipped" ∨
    (job_disposition sk ca i spec).status = "completed" ∨
    (job_disposition sk ca i spec).status = "error" := by
  by_cases h1 : cancelled ca i = true
  · simp [job_disposition, h1, pendingResult]
  · by_cases h2 : sk = true ∧ spec.destExists = true
    · simp [job_disposition, h1, h2]
    · by_cases h3 : ca = none ∨ spec.startsDespiteCancel = true
      · cases ho : spec.outcome <;>
          simp [job_disposition, h1, h2, h3, process_job, ho]
      · simp [job_disposition, h1, h2, h3, pendingResult]

/-- Splitting a count over the three terminal statuses: for records whose
status is one of the four the code assigns, the terminal counts add up to
the count of non-pending records. -/
theorem countP_status_split :
    ∀ (l : List JobResult),
      (∀ r ∈ l, r.status = "pending" ∨ r.status = "skipped" ∨
        r.status = "completed" ∨ r.status = "error") →
      l.countP (fun r => r.status == "completed") +
        l.countP (fun r => r.status == "skipped") +
        l.countP (fun r => r.status == "error") =
        l.countP (fun r => !(r.status == "pending")) := by
  intro l
  induction l with
  | nil => intro _; simp
  | cons r rest ih =>
    intro h
    have hrest : ∀ x ∈ rest, x.status = "pending" ∨ x.status = "skipped" ∨
        x.status = "completed" ∨ x.status = "error" :=
      fun x hx => h x (List.mem_cons_of_mem r hx)
    have hr := h r (List.mem_cons_self r rest)
    have hih := ih hrest
    rcases hr with h0 | h0 | h0 | h0 <;>
      simp [List.countP_cons, h0] <;> omega

/-- Job records of a full run: one disposition per discovered job, in
order, independently of whether the run was empty. -/
theorem convert_batch_results (settings : Settings) (specs : List JobSpec)
    (ca : Option Nat) :
    (convert_batch settings specs ca).results =
      specs.enum.map
        (fun p => job_disposition settings.skip_existing ca p.1 p.2) := by
  unfold convert_batch
  by_cases h : specs.length = 0
  · have h0 : specs = [] := List.length_eq_zero.mp h
    subst h0
    simp
  · simp [h, dispatch_results]

/-- Final converted counter of a full run. -/
theorem convert_batch_converted (settings : Settings) (specs : List JobSpec)
    (ca : Option Nat) :
    (convert_batch settings specs ca).converted =
      (specs.enum.map
        (fun p => job_disposition settings.skip_existing ca p.1 p.2)).countP
        (fun r => r.status == "completed") := by
  unfold convert_batch
  by_cases h : specs.length = 0
  · have h0 : specs = [] := List.length_eq_zero.mp h
    subst h0
    simp
  · simp [h, dispatch_converted]

/-- Final skipped counter of a full run. -/
theorem convert_batch_skipped (settings : Settings) (specs : List JobSpec)
    (ca : Option Nat) :
    (convert_batch settings specs ca).skipped =
      (specs.enum.map
        (fun p => job_disposition settings.skip_existing ca p.1 p.2)).countP
        (fun r => r.status == "skipped") := by
  unfold convert_batch
  by_cases h : specs.length = 0
  · have h0 : specs = [] := List.length_eq_zero.mp h
    subst h0
    simp
  · simp [h, dispatch_skipped]

/-- Final error counter of a full run: the errors counted inside
`_process_job`, plus — only in non-cancelled runs, where the wait loop
calls `future.result()` — one more per job whose exception escaped. -/
theorem convert_batch_errors (settings : Settings) (specs : List JobSpec)
    (ca : Option Nat) :
    (convert_batch settings specs ca).errors =
      (specs.enum.map
        (fun p => job_disposition settings.skip_existing ca p.1 p.2)).countP
        (fun r => r.status == "error") +
      (if ca.isSome then 0
       else (specs.enum.map
        (fun p => job_disposition settings.skip_existing ca p.1 p.2)).countP
        (fun r => r.escaped)) := by
  unfold convert_batch waitPhase
  by_cases h : specs.length = 0
  · have h0 : specs = [] := List.length_eq_zero.mp h
    subst h0
    simp
  · by_cases hca : ca.isSome
    · simp [h, hca, dispatch_errors]
    · simp [h, hca, dispatch_errors, dispatch_results,
        List.countP_eq_length_filter]

/-- C2, counterexample: in a run whose discovery finds zero matching
files, the code emits the scanning log and the "No MP3 files found"
warning and then returns from inside the try block, so — contrary to the
claim — no Complete event is ever put on the queue (and no worker pool is
created). -/
theorem zero_files_run_has_no_complete_event :
    (convert_batch ⟨160, true, true, 4⟩ [] none).events =
      [Event.log "Scanning for MP3 files..." "info",
       Event.log "No MP3 files found in source directory" "warning"] ∧
    ((convert_batch ⟨160, true, true, 4⟩ [] none).events.all
      (fun e => !(e.isComplete))) = true ∧
    (convert_batch ⟨160, true, true, 4⟩ [] none).max_workers = none := by
  refine ⟨rfl, rfl, rfl⟩

/-- C2, amended: when discovery finds zero matching files, the run emits
the "no files found" log event and returns immediately with all counters
zero and no worker pool created, but it does not emit a Complete event. -/
theorem convert_batch_zero_jobs (settings : Settings) (cancelAt : Option Nat) :
    convert_batch settings [] cancelAt =
      { converted := 0, skipped := 0, errors := 0,
        events := [Event.log "Scanning for MP3 files..." "info",
                   Event.log "No MP3 files found in source directory" "warning"],
        results := [], max_workers := none } := rfl

/-- C3, counterexample: calling convert_batch while a run is in progress
(is_running = true, counters populated) is not rejected: the call
proceeds and resets the counters, so orchestrator state is mutated and no
AlreadyRunningError is raised (none exists in the repository). -/
theorem second_start_mutates_counters :
    (convert_batch_entry
      { is_running := true, is_paused := false, should_cancel := false,
        converted_count := 5, skipped_count := 2, error_count := 1 }).converted_count
      = 0 ∧
    convert_batch_entry
      { is_running := true, is_paused := false, should_cancel := false,
        converted_count := 5, skipped_count := 2, error_count := 1 } ≠
      { is_running := true, is_paused := false, should_cancel := false,
        converted_count := 5, skipped_count := 2, error_count := 1 } := by
  exact ⟨rfl, by decide⟩

/-- C3, amended: starting a batch performs no already-running check: on
every call, including while a run is in progress, the entry of
convert_batch unconditionally sets is_running, clears should_cancel, and
resets all three counters to zero (the pause flag is left unchanged);
there is no AlreadyRunningError. -/
theorem convert_batch_entry_unconditional (st : ManagerState) :
    (convert_batch_entry st).is_running = true ∧
    (convert_batch_entry st).should_cancel = false ∧
    (convert_batch_entry st).converted_count = 0 ∧
    (convert_batch_entry st).skipped_count = 0 ∧
    (convert_batch_entry st).error_count = 0 ∧
    (convert_batch_entry st).is_paused = st.is_paused := by
  simp [convert_batch_entry]

/-- C4, counterexample: when the source root is not an existing directory,
rglob yields nothing and discovery returns the empty job list; the run
then behaves exactly like the no-matching-files case — it emits no Error
event and raises nothing, contrary to the claimed DiscoveryError. -/
theorem missing_source_root_yields_no_error_event :
    discover_files ⟨false, ["a.mp3"]⟩ (fun _ => false) (fun _ => true)
      (fun _ => ProcOutcome.success) = [] ∧
    ((convert_batch ⟨160, true, true, 4⟩
      (discover_files ⟨false, ["a.mp3"]⟩ (fun _ => false) (fun _ => true)
        (fun _ => ProcOutcome.success)) none).events.all
      (fun e => !(e.isError))) = true := by
  refine ⟨rfl, rfl⟩

/-- C4, amended: if the source root does not exist or is not a directory,
discovery yields an empty sequence with no error — indistinguishable from
an existing source with no matching files (also an empty sequence) — and
the run emits only the scanning log and the "no files found" warning, no
Error event. -/
theorem missing_source_root_behaves_as_empty (files : List String)
    (destExists starts : String → Bool) (oc : String → ProcOutcome)
    (settings : Settings) (cancelAt : Option Nat) :
    discover_files ⟨false, files⟩ destExists starts oc = [] ∧
    convert_batch settings
        (discover_files ⟨false, files⟩ destExists starts oc) cancelAt =
      { converted := 0, skipped := 0, errors := 0,
        events := [Event.log "Scanning for MP3 files..." "info",
                   Event.log "No MP3 files found in source directory" "warning"],
        results := [], max_workers := none } ∧
    discover_files ⟨true, []⟩ destExists starts oc = [] := by
  refine ⟨rfl, rfl, rfl⟩

/-- C7: the claim says a job transitions to Processing when a worker
begins encoding it; in the code no assignment ever writes the status
"processing" (the only writes are "skipped", "completed" and "error", with
"pending" from the constructor), so after any run no job record has status
"processing" — each job jumps from Pending directly to a terminal status.
The claimed concurrency bound on Processing jobs holds only vacuously. -/
theorem status_never_processing (settings : Settings) (specs : List JobSpec)
    (cancelAt : Option Nat) :
    ((convert_batch settings specs cancelAt).results).all
      (fun r => !(r.status == "processing")) = true := by
  rw [convert_batch_results, List.all_eq_true]
  intro r hr
  rw [List.mem_map] at hr
  obtain ⟨p, hp, rfl⟩ := hr
  rcases job_disposition_status settings.skip_existing cancelAt p.1 p.2 with
    h0 | h0 | h0 | h0 <;> simp [h0]

/-- C10: the overall-progress computation returns 0 for an empty job list,
guarding the division; for a non-empty list the divisor (the number of
jobs) is nonzero and the result is the counter total plus the sum of the
progress fractions of "processing" jobs, divided by the number of jobs. -/
theorem overall_progress_division_guarded (converted skipped errs : Nat)
    (j : JobView) (rest : List JobView) :
    calculate_overall_progress converted skipped errs [] = 0 ∧
    ((j :: rest).length : ℚ) ≠ 0 ∧
    calculate_overall_progress converted skipped errs (j :: rest) =
      (((converted : ℚ) + (skipped : ℚ) + (errs : ℚ)) +
        (((j :: rest).filter (fun x => x.status == "processing")).map
          (fun x => x.progress)).sum) / ((j :: rest).length : ℚ) := by
  refine ⟨rfl, ?_, ?_⟩
  · simp only [List.length_cons]
    push_cast
    positivity
  · simp [calculate_overall_progress]

/-- C1: the claim says converted + skipped + errored never exceeds the
number of discovered jobs and equals it at the Complete event.  The code
violates this: in a single-job run whose job raises before the local
engine variable is assigned (for example the destination-directory mkdir
fails), the except branch of _process_job counts one error, then the
finally block evaluates the unbound local engine and raises
UnboundLocalError, which future.result() re-raises into the outer handler
(convert.py line 143), counting the same job a second time.  The Complete
event then reports errors = 2 for total jobs = 1, so the sum exceeds the
total and does not equal it at completion. -/
theorem counter_overcount_on_pre_engine_failure :
    (convert_batch ⟨160, false, true, 4⟩
      [⟨"a.mp3", false, true, ProcOutcome.preEngineRaise "mkdir failed"⟩]
      none).converted = 0 ∧
    (convert_batch ⟨160, false, true, 4⟩
      [⟨"a.mp3", false, true, ProcOutcome.preEngineRaise "mkdir failed"⟩]
      none).skipped = 0 ∧
    (convert_batch ⟨160, false, true, 4⟩
      [⟨"a.mp3", false, true, ProcOutcome.preEngineRaise "mkdir failed"⟩]
      none).errors = 2 ∧
    Event.complete 0 0 2 ∈ (convert_batch ⟨160, false, true, 4⟩
      [⟨"a.mp3", false, true, ProcOutcome.preEngineRaise "mkdir failed"⟩]
      none).events ∧
    ([⟨"a.mp3", false, true, ProcOutcome.preEngineRaise "mkdir failed"⟩]
      : List JobSpec).length = 1 := by
  refine ⟨rfl, rfl, rfl, by decide, rfl⟩

/-- Exact-cast form of the boosted bitrate: `b * 1.25` is exact on the
rationals. -/
theorem boost_cast (b : Nat) :
    ((b : ℚ) * 1.25) = ((b * 5 : Nat) : ℚ) / ((4 : Nat) : ℚ) := by
  push_cast
  ring_nf

/-- Python `int(b * 1.25)` (truncation toward zero) is the rational floor
of `b * 1.25`, and it equals `b * 5 / 4` in natural division. -/
theorem int_trunc_boost (b : Nat) : Nat.floor ((b : ℚ) * 1.25) = b * 5 / 4 := by
  rw [boost_cast, Nat.floor_div_nat, Nat.floor_natCast]

/-- The code computes `min(int(b * 1.25), 320)`; this equals the claim's
reading `min(b * 1.25, 320)` rounded down to an integer. -/
theorem min_trunc_boost (b : Nat) :
    min (b * 5 / 4) 320 = Nat.floor (min ((b : ℚ) * 1.25) 320) := by
  rcases le_total ((b : ℚ) * 1.25) (320 : ℚ) with h | h
  · rw [min_eq_left h, int_trunc_boost]
    have hle : Nat.floor ((b : ℚ) * 1.25) ≤ Nat.floor ((320 : ℚ)) :=
      Nat.floor_le_floor h
    rw [int_trunc_boost] at hle
    have h320 : Nat.floor ((320 : ℚ)) = 320 := by norm_num
    rw [h320] at hle
    exact min_eq_left hle
  · rw [min_eq_right h]
    have hge : Nat.floor ((320 : ℚ)) ≤ Nat.floor ((b : ℚ) * 1.25) :=
      Nat.floor_le_floor h
    rw [int_trunc_boost] at hge
    have h320 : Nat.floor ((320 : ℚ)) = 320 := by norm_num
    rw [h320] at hge
    rw [h320]
    exact min_eq_right hge

/-- C5: with genre boost enabled and a successfully read genre tag that
(case-insensitively) contains one of the keywords classical, edm,
electronic, metal, jazz, the effective bitrate is
`min(base * 1.25, 320)` truncated to an integer — 160 yields 200 and 300
yields 320, not 375; in every other case (keyword absent, tag-read
failure, or boost disabled) the effective bitrate is the base bitrate and
no error is propagated. -/
theorem genre_bitrate_boost_policy (b mt : Nat) (sk gb : Bool) (g : String) :
    (genre_is_complex g = true →
      get_adjusted_bitrate ⟨b, sk, true, mt⟩ (some g) = min (b * 5 / 4) 320 ∧
      get_adjusted_bitrate ⟨b, sk, true, mt⟩ (some g) =
        Nat.floor (min ((b : ℚ) * 1.25) 320)) ∧
    (genre_is_complex g = false →
      get_adjusted_bitrate ⟨b, sk, true, mt⟩ (some g) = b) ∧
    get_adjusted_bitrate ⟨b, sk, gb, mt⟩ none = b ∧
    (∀ t, get_adjusted_bitrate ⟨b, sk, false, mt⟩ t = b) ∧
    get_adjusted_bitrate ⟨160, true, true, 4⟩ (some "Classical") = 200 ∧
    get_adjusted_bitrate ⟨300, true, true, 4⟩ (some "Classical") = 320 := by
  refine ⟨?_, ?_, ?_, ?_, by decide, by decide⟩
  · intro h
    constructor
    · simp [get_adjusted_bitrate, h]
    · simp [get_adjusted_bitrate, h, min_trunc_boost]
  · intro h
    simp [get_adjusted_bitrate, h]
  · cases gb <;> simp [get_adjusted_bitrate]
  · intro t
    cases t <;> simp [get_adjusted_bitrate]

/-- Witness for C5: the boost branch and the no-keyword branch evaluated
at concrete inputs. -/
theorem genre_bitrate_boost_policy_witness :
    get_adjusted_bitrate ⟨160, true, true, 4⟩ (some "Classical") =
      min (160 * 5 / 4) 320 ∧
    get_adjusted_bitrate ⟨200, true, true, 4⟩ (some "Rock") = 200 := by
  constructor
  · exact ((genre_bitrate_boost_policy 160 4 true true "Classical").1
      (by decide)).1
  · exact (genre_bitrate_boost_policy 200 4 true true "Rock").2.1 (by decide)

/-- C9: copy_tags is total over its error cases: for every environment
the caught computation finishes ok — no exception ever propagates to the
caller, so a tag-copy failure can never abort the calling job; the
returned Boolean is false whenever the source cannot be read (the load
raises or File() is falsy) or the destination load, tag copy or save
raises; and when only the album-art step fails it still returns true,
since _copy_album_art catches its own exceptions. -/
theorem copy_tags_never_raises (env : TagEnv) :
    exceptIsOk (copy_tags_caught env) = true ∧
    ((env.load_source_raises || env.source_is_none || env.load_dest_raises ||
      env.copy_tags_raises || env.save_raises) = true →
      copy_tags env = false) ∧
    (env.load_source_raises = false → env.source_is_none = false →
      env.load_dest_raises = false → env.copy_tags_raises = false →
      env.save_raises = false → copy_tags env = true) := by
  obtain ⟨a, b, c, d, e, f⟩ := env
  cases a <;> cases b <;> cases c <;> cases d <;> cases e <;> cases f <;>
    decide

/-- Witness for C9: a run where the standard-tag copy raises returns
false, and a run where only the album-art step raises returns true. -/
theorem copy_tags_never_raises_witness :
    copy_tags ⟨false, false, false, true, false, false⟩ = false ∧
    copy_tags ⟨false, false, false, false, true, false⟩ = true := by
  constructor
  · exact (copy_tags_never_raises
      ⟨false, false, false, true, false, false⟩).2.1 (by decide)
  · exact (copy_tags_never_raises
      ⟨false, false, false, false, true, false⟩).2.2 rfl rfl rfl rfl rfl

/-- A list that ends the prefix before the first stop character: taking
while the character differs keeps exactly the prefix. -/
theorem takeWhile_until (c : Char) (r : List Char) :
    ∀ (l : List Char), (∀ x ∈ l, x ≠ c) →
      ((l ++ c :: r).takeWhile (fun x => !(x == c))) = l := by
  intro l
  induction l with
  | nil => intro _; simp
  | cons a as ih =>
    intro h
    have ha : a ≠ c := h a (List.mem_cons_self a as)
    simp [List.takeWhile_cons, ha,
      ih (fun x hx => h x (List.mem_cons_of_mem a hx))]

/-- Dropping while the character differs lands exactly on the first stop
character. -/
theorem dropWhile_until (c : Char) (r : List Char) :
    ∀ (l : List Char), (∀ x ∈ l, x ≠ c) →
      ((l ++ c :: r).dropWhile (fun x => !(x == c))) = c :: r := by
  intro l
  induction l with
  | nil => intro _; simp
  | cons a as ih =>
    intro h
    have ha : a ≠ c := h a (List.mem_cons_self a as)
    simp [List.dropWhile_cons, ha,
      ih (fun x hx => h x (List.mem_cons_of_mem a hx))]

/-- A list containing the stop character reports containment. -/
theorem contains_append_first (n m : List Char) (c : Char) :
    (n ++ c :: m).contains c = true := by
  simp [List.contains_eq_any_beq]

/-- Boolean non-containment gives pointwise difference. -/
theorem not_contains_forall (n : List Char) (c : Char)
    (hn : n.contains c = false) : ∀ x ∈ n, x ≠ c := by
  intro x hx hc
  rw [List.contains_eq_any_beq, List.any_eq_false] at hn
  exact hn x hx (by simp [hc])

/-- splitFirst splits exactly at the first occurrence of the separator
when the prefix is free of it. -/
theorem splitFirst_append (c : Char) (n m : String)
    (h : ∀ x ∈ n.data, x ≠ c) :
    splitFirst ⟨n.data ++ c :: m.data⟩ c = (n, m) := by
  unfold splitFirst
  rw [show (String.mk (n.data ++ c :: m.data)).data = n.data ++ c :: m.data
    from rfl]
  rw [takeWhile_until c m.data n.data h, dropWhile_until c m.data n.data h]
  rfl

/-- C8: for an MP3 source whose track-number frame text has the form
"n/m", tag transcription writes TRACKNUMBER = n and TRACKTOTAL = m
(splitting on the first "/", so m may itself contain "/"), and writes
only TRACKNUMBER when no "/" is present; the same split applies to the
disc-number frame, producing DISCNUMBER and DISCTOTAL. -/
theorem track_disc_number_split (n m d e : String)
    (hn : n.data.contains '/' = false) (hd : d.data.contains '/' = false) :
    parse_track_disc_numbers (some (n ++ "/" ++ m)) (some (d ++ "/" ++ e)) =
      [("TRACKNUMBER", n), ("TRACKTOTAL", m),
       ("DISCNUMBER", d), ("DISCTOTAL", e)] ∧
    parse_track_disc_numbers (some n) (some d) =
      [("TRACKNUMBER", n), ("DISCNUMBER", d)] ∧
    parse_track_disc_numbers (some (n ++ "/" ++ m)) none =
      [("TRACKNUMBER", n), ("TRACKTOTAL", m)] := by
  have hdata : ∀ (a b : String), (a ++ "/" ++ b).data = a.data ++ '/' :: b.data := by
    intro a b
    rw [String.data_append, String.data_append]
    simp
  have hstr : ∀ (a b : String),
      a ++ "/" ++ b = (⟨a.data ++ '/' :: b.data⟩ : String) :=
    fun a b => congrArg String.mk (hdata a b)
  have hsplit_n := splitFirst_append '/' n m (not_contains_forall n.data '/' hn)
  have hsplit_d := splitFirst_append '/' d e (not_contains_forall d.data '/' hd)
  refine ⟨?_, ?_, ?_⟩
  · rw [parse_track_disc_numbers, hstr n m, hstr d e]
    rw [show (String.mk (n.data ++ '/' :: m.data)).data
      = n.data ++ '/' :: m.data from rfl]
    rw [show (String.mk (d.data ++ '/' :: e.data)).data
      = d.data ++ '/' :: e.data from rfl]
    rw [contains_append_first n.data m.data '/',
      contains_append_first d.data e.data '/']
    simp [hsplit_n, hsplit_d]
  · rw [parse_track_disc_numbers, hn, hd]
    rfl
  · rw [parse_track_disc_numbers, hstr n m]
    rw [show (String.mk (n.data ++ '/' :: m.data)).data
      = n.data ++ '/' :: m.data from rfl]
    rw [contains_append_first n.data m.data '/']
    simp [hsplit_n]

/-- Witness for C8: the split evaluated at the concrete frames "3/12" and
"1/2", and the no-slash case at "3" and "1". -/
theorem track_disc_number_split_witness :
    parse_track_disc_numbers (some ("3" ++ "/" ++ "12"))
        (some ("1" ++ "/" ++ "2")) =
      [("TRACKNUMBER", "3"), ("TRACKTOTAL", "12"),
       ("DISCNUMBER", "1"), ("DISCTOTAL", "2")] ∧
    parse_track_disc_numbers (some "3") (some "1") =
      [("TRACKNUMBER", "3"), ("DISCNUMBER", "1")] := by
  have h := track_disc_number_split "3" "12" "1" "2" (by decide) (by decide)
  exact ⟨h.1, h.2.1⟩

/-- C6: in a run where cancel() takes effect before dispatch index c,
(a) the dispatch loop touches no job at an index at or past c — such jobs
are neither skipped nor submitted to the pool and keep status "pending";
(b) every job that never started — never dispatched, or submitted but its
future was cancelled before starting — keeps status "pending"; and
(c) the three counters together count exactly the jobs with a non-pending
status, so never-started jobs are excluded from all three counters. -/
theorem cancel_stops_submission_and_excludes_pending
    (settings : Settings) (specs : List JobSpec) (c : Nat) :
    (∀ i jr,
      ((convert_batch settings specs (some c)).results)[i]? = some jr →
      c ≤ i →
      jr.dispatched = false ∧ jr.submitted = false ∧ jr.status = "pending") ∧
    (∀ jr ∈ (convert_batch settings specs (some c)).results,
      jr.ran = false → (jr.dispatched = false ∨ jr.submitted = true) →
      jr.status = "pending") ∧
    ((convert_batch settings specs (some c)).converted +
      (convert_batch settings specs (some c)).skipped +
      (convert_batch settings specs (some c)).errors =
      ((convert_batch settings specs (some c)).results).countP
        (fun jr => !(jr.status == "pending"))) := by
  have hres := convert_batch_results settings specs (some c)
  have hconv := convert_batch_converted settings specs (some c)
  have hskip := convert_batch_skipped settings specs (some c)
  have herr := convert_batch_errors settings specs (some c)
  have herr2 : (convert_batch settings specs (some c)).errors =
      (specs.enum.map
        (fun p => job_disposition settings.skip_existing (some c) p.1 p.2)).countP
        (fun r => r.status == "error") := by
    rw [herr]
    simp
  refine ⟨?_, ?_, ?_⟩
  · intro i jr hget hci
    rw [hres, List.getElem?_map, List.getElem?_enum] at hget
    cases hspec : specs[i]? with
    | none =>
      rw [hspec] at hget
      simp at hget
    | some spec =>
      rw [hspec] at hget
      simp only [Option.map_some'] at hget
      have hcancel : cancelled (some c) i = true := by
        simp [cancelled, hci]
      obtain rfl := Option.some.inj hget
      simp [job_disposition, hcancel, pendingResult]
  · rw [hres]
    intro jr hmem hran hdisp
    obtain ⟨p, hp, rfl⟩ := List.mem_map.mp hmem
    by_cases h1 : cancelled (some c) p.1 = true
    · simp [job_disposition, h1, pendingResult]
    · by_cases h2 : settings.skip_existing = true ∧ p.2.destExists = true
      · simp [job_disposition, h1, h2] at hdisp
      · by_cases h3 : p.2.startsDespiteCancel = true
        · simp [job_disposition, h1, h2, h3] at hran
        · simp [job_disposition, h1, h2, h3, pendingResult]
  · rw [hconv, hskip, herr2, hres]
    have hclass : ∀ r ∈ specs.enum.map
        (fun p => job_disposition settings.skip_existing (some c) p.1 p.2),
        r.status = "pending" ∨ r.status = "skipped" ∨
        r.status = "completed" ∨ r.status = "error" := by
      intro r hr
      obtain ⟨p, hp, rfl⟩ := List.mem_map.mp hr
      exact job_disposition_status settings.skip_existing (some c) p.1 p.2
    exact countP_status_split _ hclass

/-- Witness for C6: a two-job run with cancellation taking effect before
index 1; the job at index 1 is untouched and the counters count zero
non-pending jobs. -/
theorem cancel_stops_submission_and_excludes_pending_witness :
    (∃ jr,
      ((convert_batch ⟨160, false, true, 4⟩
        [⟨"a.mp3", false, false, ProcOutcome.success⟩,
         ⟨"b.mp3", false, false, ProcOutcome.success⟩]
        (some 1)).results)[1]? = some jr ∧
      jr.dispatched = false ∧ jr.submitted = false ∧
      jr.status = "pending") ∧
    ((convert_batch ⟨160, false, true, 4⟩
        [⟨"a.mp3", false, false, ProcOutcome.success⟩,
         ⟨"b.mp3", false, false, ProcOutcome.success⟩]
        (some 1)).converted +
     (convert_batch ⟨160, false, true, 4⟩
        [⟨"a.mp3", false, false, ProcOutcome.success⟩,
         ⟨"b.mp3", false, false, ProcOutcome.success⟩]
        (some 1)).skipped +
     (convert_batch ⟨160, false, true, 4⟩
        [⟨"a.mp3", false, false, ProcOutcome.success⟩,
         ⟨"b.mp3", false, false, ProcOutcome.success⟩]
        (some 1)).errors =
     ((convert_batch ⟨160, false, true, 4⟩
        [⟨"a.mp3", false, false, ProcOutcome.success⟩,
         ⟨"b.mp3", false, false, ProcOutcome.success⟩]
        (some 1)).results).countP
        (fun jr => !(jr.status == "pending"))) := by
  have h := cancel_stops_submission_and_excludes_pending
    ⟨160, false, true, 4⟩
    [⟨"a.mp3", false, false, ProcOutcome.success⟩,
     ⟨"b.mp3", false, false, ProcOutcome.success⟩] 1
  refine ⟨?_, h.2.2⟩
  obtain ⟨jr, hjr⟩ : ∃ jr,
      ((convert_batch ⟨160, false, true, 4⟩
        [⟨"a.mp3", false, false, ProcOutcome.success⟩,
         ⟨"b.mp3", false, false, ProcOutcome.success⟩]
        (some 1)).results)[1]? = some jr :=
    ⟨{ name := "b.mp3", status := "pending", dispatched := false,
       submitted := false, ran := false, escaped := false }, by decide⟩
  exact ⟨jr, hjr, h.1 1 jr hjr (by decide)⟩

end Ohpus

